import Mathlib

/-!
Verification of pupil_src/shared_modules/background_helper.py.

`Task_Proxy` runs a generator in a background process (`_wrapper`), which
pipes each yielded datum to the foreground, followed by a single terminal
object: the raised exception (an `EarlyCancellationError` when the shared
termination flag was observed, or the generator's own exception), or a
`StopIteration` instance on normal exhaustion; the pipe's send handle is
closed in a `finally` block.  The foreground `fetch` generator drains the
pipe without blocking, classifying each received object by `isinstance`
checks, and `cancel` sets the termination flag, drains once via `fetch`,
then joins and releases the process handle.

The embedding below models pipe contents as lists of Python objects,
the worker as a trace-producing function, and the foreground methods as
state-transforming functions on an explicit `TaskState`.
-/

namespace BG

/-- A Python object travelling through the pipe: an ordinary (non-exception)
datum, a `StopIteration` instance, an `EarlyCancellationError` instance, or
any other `Exception` instance (coded by a natural number). -/
inductive PyObj where
  | data : Nat → PyObj
  | stopIteration : PyObj
  | earlyCancellation : PyObj
  | exception : Nat → PyObj
deriving DecidableEq, Repr

/-- `isinstance(x, Exception)`: everything except ordinary data is an
exception instance (`StopIteration` and `EarlyCancellationError` both
derive from `Exception` in Python). -/
def PyObj.isExc : PyObj → Bool
  | .data _ => false
  | _ => true

/-- Whether the object is an ordinary datum (not an exception instance). -/
def PyObj.isData : PyObj → Bool
  | .data _ => true
  | _ => false

/-- The foreground-visible state of a `Task_Proxy`:
`completed` mirrors `self._completed`, `canceled` mirrors `self._canceled`,
`flag` mirrors `self._should_terminate_flag.value`, and `proc` records
whether `self.process` still holds the worker handle (`is not None`). -/
structure TaskState where
  completed : Bool
  canceled : Bool
  flag : Bool
  proc : Bool
deriving DecidableEq, Repr

/-- State right after `__init__`: both flags false, termination flag unset,
worker process handle present. -/
def initState : TaskState := ⟨false, false, false, true⟩

/-- How one run of the `fetch` generator ended: `paused` when `poll(0)`
reported nothing available (more may arrive later), `stopped` when a
`return` statement ran, `raised e` when `raise datum` fired. -/
inductive FetchOutcome where
  | paused : FetchOutcome
  | stopped : FetchOutcome
  | raised : PyObj → FetchOutcome
deriving DecidableEq, Repr

/-- Result of fully draining one `fetch()` generator: the values yielded,
the task state afterwards, the objects still unread in the pipe, and how
the generator ended. -/
structure FetchRes where
  yielded : List PyObj
  st : TaskState
  pending : List PyObj
  out : FetchOutcome
deriving DecidableEq, Repr

/-- The `while self.pipe.poll(0)` loop of `Task_Proxy.fetch`.  `pending` is
the list of objects buffered in the pipe; `closed` records whether the
worker has closed its send handle, so that with an empty buffer `poll`
reports end-of-file and `recv` raises `EOFError` (setting `_canceled`).
Received objects are classified exactly as the source does:
`StopIteration` sets `_completed` and returns, `EarlyCancellationError`
sets `_canceled` and returns, any other `Exception` is raised, anything
else is yielded. -/
def fetchLoop (closed : Bool) (st : TaskState) : List PyObj → FetchRes
  | [] =>
    if closed then ⟨[], { st with canceled := true }, [], .stopped⟩
    else ⟨[], st, [], .paused⟩
  | d :: rest =>
    match d with
    | .stopIteration => ⟨[], { st with completed := true }, rest, .stopped⟩
    | .earlyCancellation => ⟨[], { st with canceled := true }, rest, .stopped⟩
    | .exception n => ⟨[], st, rest, .raised (.exception n)⟩
    | .data v =>
      let r := fetchLoop closed st rest
      ⟨.data v :: r.yielded, r.st, r.pending, r.out⟩

/-- `Task_Proxy.fetch`: returns immediately (touching nothing) when
`completed or canceled`, otherwise runs the drain loop. -/
def fetch (st : TaskState) (pending : List PyObj) (closed : Bool) : FetchRes :=
  if st.completed || st.canceled then ⟨[], st, pending, .stopped⟩
  else fetchLoop closed st pending

/-- Result of one `cancel(timeout)` call: state afterwards, remaining pipe
contents, the exception that propagated out of the internal `fetch` drain
(if any), and the timeout passed to the worker join when the join ran. -/
structure CancelRes where
  st : TaskState
  pending : List PyObj
  raised : Option PyObj
  joinTimeout : Option Nat
deriving DecidableEq, Repr

/-- `Task_Proxy.cancel(timeout)`.  When neither flag is set it first sets
the shared termination flag, then drains via `for x in self.fetch(): pass`;
if that drain raises (a non-cancellation exception was in the pipe) the
exception propagates out of `cancel` and the `join`/release never runs.
Otherwise (and also when a flag was already set) it joins the process with
the given timeout and sets `self.process = None`, provided the handle is
still present. -/
def cancel (st : TaskState) (pending : List PyObj) (closed : Bool)
    (timeout : Nat) : CancelRes :=
  if st.completed || st.canceled then
    if st.proc then ⟨{ st with proc := false }, pending, none, some timeout⟩
    else ⟨st, pending, none, none⟩
  else
    let st1 := { st with flag := true }
    let r := fetchLoop closed st1 pending
    match r.out with
    | .raised e => ⟨r.st, r.pending, some e, none⟩
    | _ =>
      if r.st.proc then ⟨{ r.st with proc := false }, r.pending, none, some timeout⟩
      else ⟨r.st, r.pending, none, none⟩

/-- A message sent by the worker, tagged by the sending site in `_wrapper`:
`item d` is `pipe.send(datum)` inside the loop, `failure e` is
`pipe.send(e)` in the `except` clause, `endM` is `pipe.send(StopIteration())`
in the `else` clause. -/
inductive WMsg where
  | item : PyObj → WMsg
  | failure : PyObj → WMsg
  | endM : WMsg
deriving DecidableEq, Repr

/-- A terminal message: sent from the `except` or `else` clause. -/
def WMsg.isTerminal : WMsg → Bool
  | .item _ => false
  | _ => true

/-- The Python object actually travelling through the pipe for a tagged
message (the tags exist only in the model). -/
def WMsg.payload : WMsg → PyObj
  | .item d => d
  | .failure e => e
  | .endM => .stopIteration

/-- Pipe contents produced by a worker trace. -/
def payloads (t : List WMsg) : List PyObj := t.map WMsg.payload

/-- The terminal message the worker sends once the generator loop ends on
its own: the generator's exception via the `except` clause, or a fresh
`StopIteration` via the `else` clause. -/
def termMsgs : Option PyObj → List WMsg
  | none => [WMsg.endM]
  | some e => [WMsg.failure e]

/-- The `for datum in generator` loop of `Task_Proxy._wrapper`.  `items`
are the values the generator would yield; `genErr` is the exception it
raises after the last one (`none` for normal exhaustion); `flagAt i` is the
value of the shared termination flag when it is read in iteration `i`; `i`
counts how many items have been pulled from the generator so far.  The
loop pulls the next item first, then checks the flag; a true flag raises
`EarlyCancellationError`, which the `except` clause forwards, so the
pulled item is never sent.  Returns the trace of sent messages and the
total number of items pulled from the generator. -/
def wrapperLoop (flagAt : Nat → Bool) (genErr : Option PyObj) :
    List PyObj → Nat → List WMsg × Nat
  | [], i => (termMsgs genErr, i)
  | d :: ds, i =>
    if flagAt i then ([WMsg.failure PyObj.earlyCancellation], i + 1)
    else
      let r := wrapperLoop flagAt genErr ds (i + 1)
      (WMsg.item d :: r.1, r.2)

/-- Result of one full run of `_wrapper`: the message trace, how many items
were pulled from the generator, and whether the pipe's send handle was
closed on exit (the `finally` clause). -/
structure WRes where
  trace : List WMsg
  pulled : Nat
  sendClosed : Bool
deriving Repr

/-- One full run of `Task_Proxy._wrapper`: run the loop, then close the
send handle in the `finally` clause on every exit path. -/
def wrapperRun (flagAt : Nat → Bool) (items : List PyObj)
    (genErr : Option PyObj) : WRes :=
  let r := wrapperLoop flagAt genErr items 0
  ⟨r.1, r.2, true⟩

/-- Result of a whole polling session: everything yielded across the
`fetch()` calls, the final state, the final pipe contents, and the
exception that ended the session (if one of the calls raised). -/
structure SeqRes where
  yielded : List PyObj
  st : TaskState
  pending : List PyObj
  raised : Option PyObj
deriving DecidableEq, Repr

/-- A caller polling `fetch()` repeatedly: `chunks` lists the messages
newly arrived in the pipe before each call (modelling the worker racing
ahead); `closed` tells whether the send handle is closed by the time of
the last call.  The session stops early when a call raises, as an uncaught
exception aborts the caller's polling loop. -/
def runFetchSeq (closed : Bool) :
    TaskState → List PyObj → List (List PyObj) → SeqRes
  | st, carry, [] => ⟨[], st, carry, none⟩
  | st, carry, c :: cs =>
    let r := fetch st (carry ++ c) (if cs.isEmpty then closed else false)
    match r.out with
    | .raised e => ⟨r.yielded, r.st, r.pending, some e⟩
    | _ =>
      let s := runFetchSeq closed r.st r.pending cs
      ⟨r.yielded ++ s.yielded, s.st, s.pending, s.raised⟩

/-- A foreground operation on the task, together with the messages that
arrived in the pipe since the previous operation and whether the send
handle is closed by now. -/
inductive Op where
  | fetchOp : List PyObj → Bool → Op
  | cancelOp : List PyObj → Bool → Nat → Op
deriving DecidableEq, Repr

/-- Foreground-observable system state: task state plus pipe contents. -/
structure Sys where
  st : TaskState
  pending : List PyObj
deriving DecidableEq, Repr

/-- The system right after `__init__` with an empty pipe. -/
def initSys : Sys := ⟨initState, []⟩

/-- Apply one foreground operation. -/
def stepOp (s : Sys) : Op → Sys
  | .fetchOp a c =>
    let r := fetch s.st (s.pending ++ a) c
    ⟨r.st, r.pending⟩
  | .cancelOp a c t =>
    let r := cancel s.st (s.pending ++ a) c t
    ⟨r.st, r.pending⟩

/-- Apply a sequence of foreground operations. -/
def runOps (s : Sys) (ops : List Op) : Sys := ops.foldl stepOp s

/-! ### Basic lemmas about the fetch loop -/

/-- Draining a pipe holding only ordinary data with the send handle still
open yields all of it, changes no state, and pauses. -/
lemma fetchLoop_data (st : TaskState) :
    ∀ D : List Nat, fetchLoop false st (D.map PyObj.data) =
      ⟨D.map PyObj.data, st, [], .paused⟩ := by
  intro D
  induction D with
  | nil => simp [fetchLoop]
  | cons v D ih => simp [fetchLoop, ih]

/-- Draining data followed by a `StopIteration` yields the data, sets
`completed`, and returns, whatever follows in the pipe and whether or not
the send handle is closed. -/
lemma fetchLoop_data_stop (closed : Bool) (st : TaskState) (rest : List PyObj) :
    ∀ D : List Nat,
      fetchLoop closed st (D.map PyObj.data ++ PyObj.stopIteration :: rest) =
        ⟨D.map PyObj.data, { st with completed := true }, rest, .stopped⟩ := by
  intro D
  induction D with
  | nil => simp [fetchLoop]
  | cons v D ih => simp [fetchLoop, ih]

/-- Draining data followed by an `EarlyCancellationError` yields the data,
sets `canceled`, and returns. -/
lemma fetchLoop_data_ec (closed : Bool) (st : TaskState) (rest : List PyObj) :
    ∀ D : List Nat,
      fetchLoop closed st (D.map PyObj.data ++ PyObj.earlyCancellation :: rest) =
        ⟨D.map PyObj.data, { st with canceled := true }, rest, .stopped⟩ := by
  intro D
  induction D with
  | nil => simp [fetchLoop]
  | cons v D ih => simp [fetchLoop, ih]

/-- Draining data followed by any other exception yields the data, then
raises that exception without touching either flag. -/
lemma fetchLoop_data_exc (closed : Bool) (st : TaskState) (rest : List PyObj)
    (n : Nat) :
    ∀ D : List Nat,
      fetchLoop closed st (D.map PyObj.data ++ PyObj.exception n :: rest) =
        ⟨D.map PyObj.data, st, rest, .raised (PyObj.exception n)⟩ := by
  intro D
  induction D with
  | nil => simp [fetchLoop]
  | cons v D ih => simp [fetchLoop, ih]

/-- Draining a data-only pipe whose send handle is already closed yields
the data, then hits `EOFError` on the next `recv` and sets `canceled`. -/
lemma fetchLoop_data_eof (st : TaskState) :
    ∀ D : List Nat, fetchLoop true st (D.map PyObj.data) =
      ⟨D.map PyObj.data, { st with canceled := true }, [], .stopped⟩ := by
  intro D
  induction D with
  | nil => simp [fetchLoop]
  | cons v D ih => simp [fetchLoop, ih]

/-- One pass of the fetch loop either leaves the state alone, sets only
`completed`, or sets only `canceled`. -/
lemma fetchLoop_state_cases (closed : Bool) (st : TaskState) :
    ∀ p : List PyObj,
      (fetchLoop closed st p).st = st ∨
      (fetchLoop closed st p).st = { st with completed := true } ∨
      (fetchLoop closed st p).st = { st with canceled := true } := by
  intro p
  induction p with
  | nil =>
    by_cases h : closed <;> simp [fetchLoop, h]
  | cons d rest ih =>
    cases d with
    | data v => simpa [fetchLoop] using ih
    | stopIteration => simp [fetchLoop]
    | earlyCancellation => simp [fetchLoop]
    | exception n => simp [fetchLoop]

/-- The fetch loop never touches the termination flag or the process
handle. -/
lemma fetchLoop_flag_proc (closed : Bool) (st : TaskState) (p : List PyObj) :
    (fetchLoop closed st p).st.flag = st.flag ∧
    (fetchLoop closed st p).st.proc = st.proc := by
  rcases fetchLoop_state_cases closed st p with h | h | h <;> simp [h]

/-- Every value the fetch loop yields came out of the `else` branch, hence
is an ordinary datum, never an exception instance. -/
lemma fetchLoop_yield_not_exc (closed : Bool) (st : TaskState) :
    ∀ p : List PyObj, ∀ y ∈ (fetchLoop closed st p).yielded, y.isExc = false := by
  intro p
  induction p with
  | nil =>
    by_cases h : closed <;> simp [fetchLoop, h]
  | cons d rest ih =>
    cases d with
    | data v =>
      intro y hy
      simp only [fetchLoop, List.mem_cons] at hy
      rcases hy with rfl | hy
      · rfl
      · exact ih y hy
    | stopIteration => simp [fetchLoop]
    | earlyCancellation => simp [fetchLoop]
    | exception n => simp [fetchLoop]

/-- Splitting a pipe content of the form data-then-one-terminal across a
first chunk and the rest: either the first chunk is data only, or it holds
everything up to and including the terminal and the rest is empty. -/
lemma chunk_split (z : PyObj) :
    ∀ (c js : List PyObj) (D : List Nat),
      c ++ js = D.map PyObj.data ++ [z] →
      (∃ D1 D2, D = D1 ++ D2 ∧ c = D1.map PyObj.data ∧
        js = D2.map PyObj.data ++ [z]) ∨
      (c = D.map PyObj.data ++ [z] ∧ js = []) := by
  intro c
  induction c with
  | nil =>
    intro js D h
    exact Or.inl ⟨[], D, rfl, rfl, by simpa using h⟩
  | cons x c ih =>
    intro js D h
    cases D with
    | nil =>
      simp only [List.map_nil, List.nil_append, List.cons_append] at h
      injection h with hx htail
      rcases List.append_eq_nil.mp htail with ⟨hc, hjs⟩
      exact Or.inr ⟨by simp [hx, hc], hjs⟩
    | cons v D =>
      simp only [List.map_cons, List.cons_append] at h
      injection h with hx htail
      rcases ih js D htail with ⟨D1, D2, hD, hc, hjs⟩ | ⟨hc, hjs⟩
      · exact Or.inl ⟨v :: D1, D2, by simp [hD], by simp [hx, hc], hjs⟩
      · exact Or.inr ⟨by simp [hx, hc], hjs⟩

/-! ### Basic lemmas about the worker -/

/-- When the termination flag is never observed true, the worker forwards
every generator item, then the terminal message, having pulled exactly the
items from the generator. -/
lemma wrapperLoop_no_flag (genErr : Option PyObj) :
    ∀ (items : List PyObj) (i : Nat),
      wrapperLoop (fun _ => false) genErr items i =
        (items.map WMsg.item ++ termMsgs genErr, i + items.length) := by
  intro items
  induction items with
  | nil => intro i; simp [wrapperLoop]
  | cons d ds ih =>
    intro i
    simp only [wrapperLoop, if_neg (by simp : ¬((fun _ : Nat => false) i = true))]
    simp [ih (i + 1), List.length_cons]
    omega

/-- Pipe contents of an undisturbed worker run: the items themselves
followed by the payload of the terminal message. -/
lemma payloads_no_flag (items : List PyObj) (genErr : Option PyObj) :
    payloads (wrapperRun (fun _ => false) items genErr).trace =
      items ++ payloads (termMsgs genErr) := by
  simp only [wrapperRun, wrapperLoop_no_flag, payloads, List.map_append]
  congr 1
  induction items with
  | nil => rfl
  | cons d ds ih => simp [WMsg.payload, ih]

/-! ### Lemmas about repeated fetch sessions -/

/-- Once either flag is set, any further sequence of `fetch()` calls
yields nothing, raises nothing, changes no state, and leaves the pipe
untouched. -/
lemma runFetchSeq_done (closed : Bool) (st : TaskState)
    (h : st.completed = true ∨ st.canceled = true) :
    ∀ (chunks : List (List PyObj)) (carry : List PyObj),
      runFetchSeq closed st carry chunks = ⟨[], st, carry ++ chunks.flatten, none⟩ := by
  have hguard : (st.completed || st.canceled) = true := by
    rcases h with h | h <;> simp [h]
  intro chunks
  induction chunks with
  | nil => intro carry; simp [runFetchSeq]
  | cons c cs ih =>
    intro carry
    simp only [runFetchSeq, fetch, if_pos hguard]
    simp [ih (carry ++ c), List.append_assoc]

/-- An active task polled across any schedule of arrivals that together
deliver the items followed by a `StopIteration` yields exactly the items
in order and ends with only `completed` set. -/
lemma runFetchSeq_completes (closed : Bool) :
    ∀ (chunks : List (List PyObj)) (st : TaskState) (D : List Nat),
      st.completed = false → st.canceled = false →
      chunks.flatten = D.map PyObj.data ++ [PyObj.stopIteration] →
      runFetchSeq closed st [] chunks =
        ⟨D.map PyObj.data, { st with completed := true }, [], none⟩ := by
  intro chunks
  induction chunks with
  | nil =>
    intro st D hc hk h
    simp only [List.flatten_nil] at h
    exact absurd h (by simp)
  | cons c cs ih =>
    intro st D hc hk h
    have hguard : (st.completed || st.canceled) = false := by simp [hc, hk]
    simp only [List.flatten_cons] at h
    rcases chunk_split PyObj.stopIteration c cs.flatten D h with
      ⟨D1, D2, hD, hcc, hjs⟩ | ⟨hcc, hjs⟩
    · have hcs : cs.isEmpty = false := by
        cases cs with
        | nil => simp at hjs
        | cons a b => rfl
      have hf : fetch st ([] ++ c) (if cs.isEmpty then closed else false) =
          ⟨D1.map PyObj.data, st, [], .paused⟩ := by
        rw [List.nil_append, hcc, hcs]
        simp [fetch, hguard, fetchLoop_data]
      simp only [runFetchSeq, hf]
      rw [ih st D2 hc hk hjs]
      simp [hD]
    · have hf : fetch st ([] ++ c) (if cs.isEmpty then closed else false) =
          ⟨D.map PyObj.data, { st with completed := true }, [], .stopped⟩ := by
        rw [List.nil_append, hcc]
        simp only [fetch, hguard, Bool.false_eq_true, if_false]
        exact fetchLoop_data_stop _ st [] D
      simp only [runFetchSeq, hf]
      rw [runFetchSeq_done closed _ (Or.inl rfl) cs []]
      simp [hjs]

/-- An active task polled across any schedule of arrivals that together
deliver the items followed by a non-cancellation exception yields exactly
the items in order, then the session ends with that exception raised and
both flags still clear. -/
lemma runFetchSeq_raises (closed : Bool) (n : Nat) :
    ∀ (chunks : List (List PyObj)) (st : TaskState) (D : List Nat),
      st.completed = false → st.canceled = false →
      chunks.flatten = D.map PyObj.data ++ [PyObj.exception n] →
      runFetchSeq closed st [] chunks =
        ⟨D.map PyObj.data, st, [], some (PyObj.exception n)⟩ := by
  intro chunks
  induction chunks with
  | nil =>
    intro st D hc hk h
    simp only [List.flatten_nil] at h
    exact absurd h (by simp)
  | cons c cs ih =>
    intro st D hc hk h
    have hguard : (st.completed || st.canceled) = false := by simp [hc, hk]
    simp only [List.flatten_cons] at h
    rcases chunk_split (PyObj.exception n) c cs.flatten D h with
      ⟨D1, D2, hD, hcc, hjs⟩ | ⟨hcc, hjs⟩
    · have hcs : cs.isEmpty = false := by
        cases cs with
        | nil => simp at hjs
        | cons a b => rfl
      have hf : fetch st ([] ++ c) (if cs.isEmpty then closed else false) =
          ⟨D1.map PyObj.data, st, [], .paused⟩ := by
        rw [List.nil_append, hcc, hcs]
        simp [fetch, hguard, fetchLoop_data]
      simp only [runFetchSeq, hf]
      rw [ih st D2 hc hk hjs]
      simp [hD]
    · have hf : fetch st ([] ++ c) (if cs.isEmpty then closed else false) =
          ⟨D.map PyObj.data, st, [], .raised (PyObj.exception n)⟩ := by
        rw [List.nil_append, hcc]
        simp only [fetch, hguard, Bool.false_eq_true, if_false]
        exact fetchLoop_data_exc _ st [] n D
      simp only [runFetchSeq, hf]

/-- Every worker run ends in exactly one terminal message: whatever the
flag schedule, items, and generator outcome, the trace is non-terminal
messages followed by a single terminal one. -/
lemma wrapperLoop_terminal :
    ∀ (items : List PyObj) (flagAt : Nat → Bool) (genErr : Option PyObj)
      (i : Nat),
      ∃ pre last, (wrapperLoop flagAt genErr items i).1 = pre ++ [last] ∧
        (∀ m ∈ pre, m.isTerminal = false) ∧ last.isTerminal = true := by
  intro items
  induction items with
  | nil =>
    intro flagAt genErr i
    cases genErr with
    | none => exact ⟨[], WMsg.endM, by simp [wrapperLoop, termMsgs], by simp, rfl⟩
    | some e =>
      exact ⟨[], WMsg.failure e, by simp [wrapperLoop, termMsgs], by simp, rfl⟩
  | cons d ds ih =>
    intro flagAt genErr i
    by_cases hf : flagAt i = true
    · exact ⟨[], WMsg.failure PyObj.earlyCancellation,
        by simp [wrapperLoop, hf], by simp, rfl⟩
    · obtain ⟨pre, last, htr, hpre, hlast⟩ := ih flagAt genErr (i + 1)
      refine ⟨WMsg.item d :: pre, last, ?_, ?_, hlast⟩
      · simp [wrapperLoop, hf, htr]
      · intro m hm
        rcases List.mem_cons.mp hm with rfl | hm
        · rfl
        · exact hpre m hm

/-- When the flag first reads true at iteration `i` (with `i` an index
into the item list, checked against offsets based at `k`), the worker
sends the first `i` items, then a single cancellation failure, having
pulled `i + 1` items from the generator — the pending item was pulled but
never sent. -/
lemma wrapperLoop_flag_hit :
    ∀ (items : List PyObj) (i k : Nat) (flagAt : Nat → Bool)
      (genErr : Option PyObj),
      i < items.length → (∀ j, j < i → flagAt (k + j) = false) →
      flagAt (k + i) = true →
      wrapperLoop flagAt genErr items k =
        ((items.take i).map WMsg.item ++
          [WMsg.failure PyObj.earlyCancellation], k + i + 1) := by
  intro items
  induction items with
  | nil =>
    intro i k flagAt genErr h1 h2 h3
    exact absurd h1 (by simp)
  | cons d ds ih =>
    intro i k flagAt genErr h1 h2 h3
    cases i with
    | zero =>
      have hk : flagAt k = true := by simpa using h3
      simp [wrapperLoop, hk]
    | succ i =>
      have hk : flagAt k = false := by simpa using h2 0 (Nat.succ_pos i)
      have h2s : ∀ j, j < i → flagAt (k + 1 + j) = false := by
        intro j hj
        have heq : k + 1 + j = k + (j + 1) := by omega
        rw [heq]
        exact h2 (j + 1) (by omega)
      have h3s : flagAt (k + 1 + i) = true := by
        have heq : k + 1 + i = k + (i + 1) := by omega
        rw [heq]
        exact h3
      have h1s : i < ds.length := by simpa using h1
      simp only [wrapperLoop, hk, Bool.false_eq_true, if_false,
        ih i (k + 1) flagAt genErr h1s h2s h3s]
      refine Prod.ext ?_ ?_
      · simp [List.take_succ_cons]
      · simp
        omega

/-! ### Lemmas about single operations and operation sequences -/

/-- A `fetch` call never resets `completed`. -/
lemma stepOp_mono_completed (s : Sys) (op : Op) (h : s.st.completed = true) :
    (stepOp s op).st.completed = true := by
  cases op with
  | fetchOp a c => simp [stepOp, fetch, h]
  | cancelOp a c t =>
    by_cases hp : s.st.proc <;> simp [stepOp, cancel, h, hp]

/-- No operation resets `canceled`. -/
lemma stepOp_mono_canceled (s : Sys) (op : Op) (h : s.st.canceled = true) :
    (stepOp s op).st.canceled = true := by
  cases op with
  | fetchOp a c => simp [stepOp, fetch, h]
  | cancelOp a c t =>
    by_cases hp : s.st.proc <;> simp [stepOp, cancel, h, hp]

/-- `cancel` keeps `completed` and `canceled` mutually exclusive. -/
lemma cancel_not_both (st : TaskState) (p : List PyObj) (c : Bool) (t : Nat)
    (h : ¬(st.completed = true ∧ st.canceled = true)) :
    ¬((cancel st p c t).st.completed = true ∧
      (cancel st p c t).st.canceled = true) := by
  by_cases hg : (st.completed || st.canceled) = true
  · by_cases hp : st.proc <;> simp [cancel, hg, hp] <;>
      simpa using h
  · have hc : st.completed = false := by
      revert hg; cases st.completed <;> simp
    have hk : st.canceled = false := by
      revert hg; cases st.canceled <;> simp
    rcases hout : (fetchLoop c { st with flag := true } p).out with _ | _ | e <;>
      rcases hs : (fetchLoop c { st with flag := true } p).st with ⟨sc, sk, sf, sp⟩ <;>
      rcases fetchLoop_state_cases c { st with flag := true } p with h3 | h3 | h3 <;>
      rw [hs] at h3 <;>
      simp only [TaskState.mk.injEq] at h3 <;>
      by_cases hp : sp <;>
      simp_all [cancel]

/-- `stepOp` keeps `completed` and `canceled` mutually exclusive. -/
lemma stepOp_not_both (s : Sys) (op : Op)
    (h : ¬(s.st.completed = true ∧ s.st.canceled = true)) :
    ¬((stepOp s op).st.completed = true ∧ (stepOp s op).st.canceled = true) := by
  cases op with
  | fetchOp a c =>
    by_cases hg : (s.st.completed || s.st.canceled) = true
    · simpa [stepOp, fetch, hg] using h
    · have hc : s.st.completed = false := by
        revert hg; cases h2 : s.st.completed <;> simp
      have hk : s.st.canceled = false := by
        revert hg; cases h2 : s.st.canceled <;> simp
      rcases fetchLoop_state_cases c s.st (s.pending ++ a) with h3 | h3 | h3 <;>
        simp [stepOp, fetch, hg, h3, hc, hk]
  | cancelOp a c t =>
    exact cancel_not_both s.st (s.pending ++ a) c t h

/-- Mutual exclusion of the flags is preserved by any operation
sequence. -/
lemma runOps_not_both :
    ∀ (ops : List Op) (s : Sys),
      ¬(s.st.completed = true ∧ s.st.canceled = true) →
      ¬((runOps s ops).st.completed = true ∧ (runOps s ops).st.canceled = true) := by
  intro ops
  induction ops with
  | nil => intro s h; exact h
  | cons op ops ih =>
    intro s h
    exact ih (stepOp s op) (stepOp_not_both s op h)

/-- `completed` is monotone along any operation sequence. -/
lemma runOps_mono_completed :
    ∀ (ops : List Op) (s : Sys), s.st.completed = true →
      (runOps s ops).st.completed = true := by
  intro ops
  induction ops with
  | nil => intro s h; exact h
  | cons op ops ih =>
    intro s h
    exact ih (stepOp s op) (stepOp_mono_completed s op h)

/-- `canceled` is monotone along any operation sequence. -/
lemma runOps_mono_canceled :
    ∀ (ops : List Op) (s : Sys), s.st.canceled = true →
      (runOps s ops).st.canceled = true := by
  intro ops
  induction ops with
  | nil => intro s h; exact h
  | cons op ops ih =>
    intro s h
    exact ih (stepOp s op) (stepOp_mono_canceled s op h)

/-! ### Claim theorems -/

/-- C1: for a generator producing a finite sequence of data items with the
termination flag never set, repeated `fetch()` calls — under any schedule
of message arrivals delivering the worker's trace — collectively yield
exactly those items in their original order, no call raises, and after the
terminal `StopIteration` is consumed `completed` is true and `canceled` is
false. -/
theorem c1_fetch_yields_all_items_then_completed (D : List Nat)
    (chunks : List (List PyObj)) (closed : Bool)
    (h : chunks.flatten =
      payloads (wrapperRun (fun _ => false) (D.map PyObj.data) none).trace) :
    runFetchSeq closed initState [] chunks =
      ⟨D.map PyObj.data, ⟨true, false, false, true⟩, [], none⟩ := by
  have hp : chunks.flatten = D.map PyObj.data ++ [PyObj.stopIteration] := by
    rw [h, payloads_no_flag]
    rfl
  rw [runFetchSeq_completes closed chunks initState D rfl rfl hp]
  rfl

/-- Witness for C1 at a concrete run: two items arriving in two chunks. -/
theorem c1_witness :
    runFetchSeq true initState []
        [[PyObj.data 3], [PyObj.data 1, PyObj.stopIteration]] =
      ⟨[3, 1].map PyObj.data, ⟨true, false, false, true⟩, [], none⟩ :=
  c1_fetch_yields_all_items_then_completed [3, 1]
    [[PyObj.data 3], [PyObj.data 1, PyObj.stopIteration]] true (by decide)

/-- C2: if the generator raises a non-cancellation error after yielding k
data items, then under any arrival schedule the `fetch()` calls yield
exactly those k items in order, the pull immediately following the k-th
item raises that same error in the caller, and at that point neither
`completed` nor `canceled` is set (the final state equals the initial
one). -/
theorem c2_fetch_yields_then_raises_worker_error (D : List Nat) (n : Nat)
    (chunks : List (List PyObj)) (closed : Bool)
    (h : chunks.flatten =
      payloads (wrapperRun (fun _ => false) (D.map PyObj.data)
        (some (PyObj.exception n))).trace) :
    runFetchSeq closed initState [] chunks =
      ⟨D.map PyObj.data, initState, [], some (PyObj.exception n)⟩ := by
  have hp : chunks.flatten = D.map PyObj.data ++ [PyObj.exception n] := by
    rw [h, payloads_no_flag]
    rfl
  exact runFetchSeq_raises closed n chunks initState D rfl rfl hp

/-- Witness for C2 at a concrete run: one item, then the generator raises
error 7, delivered across two fetch calls. -/
theorem c2_witness :
    runFetchSeq false initState []
        [[PyObj.data 5], [PyObj.exception 7]] =
      ⟨[5].map PyObj.data, initState, [], some (PyObj.exception 7)⟩ :=
  c2_fetch_yields_then_raises_worker_error [5] 7
    [[PyObj.data 5], [PyObj.exception 7]] false (by decide)

/-- C3: starting from the freshly constructed task, after any sequence of
`fetch()` and `cancel()` operations `completed` and `canceled` are never
both true, and once either is true it stays true under any further
operations. -/
theorem c3_flags_exclusive_and_monotone :
    ∀ ops : List Op,
      (¬((runOps initSys ops).st.completed = true ∧
         (runOps initSys ops).st.canceled = true)) ∧
      ∀ more : List Op,
        ((runOps initSys ops).st.completed = true →
          (runOps initSys (ops ++ more)).st.completed = true) ∧
        ((runOps initSys ops).st.canceled = true →
          (runOps initSys (ops ++ more)).st.canceled = true) := by
  intro ops
  refine ⟨runOps_not_both ops initSys (by simp [initSys, initState]), ?_⟩
  intro more
  constructor
  · intro h
    rw [runOps, List.foldl_append]
    exact runOps_mono_completed more (runOps initSys ops) h
  · intro h
    rw [runOps, List.foldl_append]
    exact runOps_mono_canceled more (runOps initSys ops) h

/-- Witness for C3: a task completed by one fetch stays completed across a
later cancel, and a task canceled by a cancel stays canceled across a
later fetch. -/
theorem c3_witness :
    (runOps initSys
        ([Op.fetchOp [PyObj.stopIteration] false] ++
          [Op.cancelOp [] false 1])).st.completed = true ∧
    (runOps initSys
        ([Op.cancelOp [] true 1] ++
          [Op.fetchOp [] true])).st.canceled = true :=
  ⟨((c3_flags_exclusive_and_monotone
      [Op.fetchOp [PyObj.stopIteration] false]).2
        [Op.cancelOp [] false 1]).1 (by decide),
   ((c3_flags_exclusive_and_monotone
      [Op.cancelOp [] true 1]).2
        [Op.fetchOp [] true]).2 (by decide)⟩

/-- C4: for every run of the worker — any flag schedule, any item list,
normal exhaustion or a generator error — the trace consists of
non-terminal item messages followed by exactly one terminal message (a
failure or the end marker), nothing follows it, and the send handle is
closed on exit. -/
theorem c4_worker_sends_one_terminal_then_closes (flagAt : Nat → Bool)
    (items : List PyObj) (genErr : Option PyObj) :
    (∃ pre last, (wrapperRun flagAt items genErr).trace = pre ++ [last] ∧
      (∀ m ∈ pre, m.isTerminal = false) ∧ last.isTerminal = true) ∧
    (wrapperRun flagAt items genErr).sendClosed = true := by
  refine ⟨?_, rfl⟩
  obtain ⟨pre, last, htr, hpre, hlast⟩ :=
    wrapperLoop_terminal items flagAt genErr 0
  exact ⟨pre, last, by simpa [wrapperRun] using htr, hpre, hlast⟩

/-- C8 as amended: when the termination flag first reads true at iteration
`i`, the worker has sent exactly the first `i` items, aborts by sending a
single failure message carrying the distinguished cancellation error,
stops iterating, and does not send the pending item — although that item
has already been pulled from the generator (`pulled = i + 1`). -/
theorem c8_flag_aborts_with_cancellation_failure (flagAt : Nat → Bool)
    (items : List PyObj) (genErr : Option PyObj) (i : Nat)
    (h1 : i < items.length) (h2 : ∀ j, j < i → flagAt j = false)
    (h3 : flagAt i = true) :
    wrapperRun flagAt items genErr =
      ⟨(items.take i).map WMsg.item ++
        [WMsg.failure PyObj.earlyCancellation], i + 1, true⟩ := by
  have h2z : ∀ j, j < i → flagAt (0 + j) = false := by
    intro j hj; simpa using h2 j hj
  have h3z : flagAt (0 + i) = true := by simpa using h3
  simp [wrapperRun, wrapperLoop_flag_hit items i 0 flagAt genErr h1 h2z h3z]

/-- Witness for C8: flag reads false at iteration 0 and true at iteration
1, so only the first of three items is sent. -/
theorem c8_witness :
    wrapperRun (fun j => decide (1 ≤ j))
        [PyObj.data 4, PyObj.data 5, PyObj.data 6] none =
      ⟨[WMsg.item (PyObj.data 4),
        WMsg.failure PyObj.earlyCancellation], 2, true⟩ :=
  c8_flag_aborts_with_cancellation_failure (fun j => decide (1 ≤ j))
    [PyObj.data 4, PyObj.data 5, PyObj.data 6] none 1
    (by decide) (by decide) (by decide)

/-- C8, original wording, is false: the pending item is pulled from the
generator before the flag check, so with the flag already true at
iteration 0 the worker sends nothing but has still produced one item
(`pulled = 1`, not `0`). -/
theorem c8_counterexample :
    (wrapperRun (fun _ => true) [PyObj.data 0] none).trace =
      [WMsg.failure PyObj.earlyCancellation] ∧
    (wrapperRun (fun _ => true) [PyObj.data 0] none).pulled = 1 := by
  constructor <;> rfl

/-- C5: `cancel(timeout)` on a task already completed or canceled changes
neither flag nor the termination flag, leaves the pipe untouched, and
raises nothing; in particular a second `cancel` after one completed is a
no-op on this state. -/
theorem c5_cancel_idempotent_after_terminal (st : TaskState) (p : List PyObj)
    (c : Bool) (t : Nat) (h : st.completed = true ∨ st.canceled = true) :
    (cancel st p c t).st.completed = st.completed ∧
    (cancel st p c t).st.canceled = st.canceled ∧
    (cancel st p c t).st.flag = st.flag ∧
    (cancel st p c t).pending = p ∧
    (cancel st p c t).raised = none := by
  have hg : (st.completed || st.canceled) = true := by
    rcases h with h | h <;> simp [h]
  by_cases hp : st.proc <;> simp [cancel, hg, hp]

/-- Witness for C5: cancel on an already-completed task. -/
theorem c5_witness :
    (cancel ⟨true, false, false, false⟩ [PyObj.data 9] false 1).st.completed =
        true ∧
    (cancel ⟨true, false, false, false⟩ [PyObj.data 9] false 1).st.canceled =
        false ∧
    (cancel ⟨true, false, false, false⟩ [PyObj.data 9] false 1).st.flag =
        false ∧
    (cancel ⟨true, false, false, false⟩ [PyObj.data 9] false 1).pending =
        [PyObj.data 9] ∧
    (cancel ⟨true, false, false, false⟩ [PyObj.data 9] false 1).raised =
        none :=
  c5_cancel_idempotent_after_terminal ⟨true, false, false, false⟩
    [PyObj.data 9] false 1 (Or.inl rfl)

/-- C6, original wording, is false: with a non-cancellation exception
pending in the pipe, `cancel` on an active task propagates that exception
out of its internal drain, so it does raise, never joins, and leaves the
worker handle in place. -/
theorem c6_counterexample :
    (cancel initState [PyObj.exception 0] false 1).raised =
        some (PyObj.exception 0) ∧
    (cancel initState [PyObj.exception 0] false 1).st.proc = true ∧
    (cancel initState [PyObj.exception 0] false 1).joinTimeout = none := by
  exact ⟨rfl, rfl, rfl⟩

/-- C6 as amended: on an active task, `cancel(timeout)` sets the
termination flag and drains via `fetch`; unless the drain raises a pending
non-cancellation error, it joins the worker with the given timeout and
releases the handle without raising; if the drain does raise, the error
propagates and the join and release are skipped. -/
theorem c6_cancel_sets_flag_then_joins_unless_drain_raises (st : TaskState)
    (p : List PyObj) (c : Bool) (t : Nat)
    (hc : st.completed = false) (hk : st.canceled = false) :
    (cancel st p c t).st.flag = true ∧
    ((cancel st p c t).raised = none →
      (cancel st p c t).st.proc = false ∧
      (st.proc = true → (cancel st p c t).joinTimeout = some t)) ∧
    (∀ e, (cancel st p c t).raised = some e →
      (cancel st p c t).st.proc = st.proc ∧
      (cancel st p c t).joinTimeout = none) := by
  have hg : (st.completed || st.canceled) = false := by simp [hc, hk]
  obtain ⟨hfl, hpr⟩ := fetchLoop_flag_proc c { st with flag := true } p
  rcases hout : (fetchLoop c { st with flag := true } p).out with _ | _ | e <;>
    by_cases hp : (fetchLoop c { st with flag := true } p).st.proc <;>
    simp_all [cancel, hg, hout]

/-- Witness for C6: cancel on a fresh task with one datum pending sets the
flag, raises nothing, and releases the worker handle. -/
theorem c6_witness :
    (cancel initState [PyObj.data 5] false 2).st.flag = true ∧
    (cancel initState [PyObj.data 5] false 2).st.proc = false ∧
    (cancel initState [PyObj.data 5] false 2).joinTimeout = some 2 :=
  ⟨(c6_cancel_sets_flag_then_joins_unless_drain_raises initState
      [PyObj.data 5] false 2 rfl rfl).1,
   ((c6_cancel_sets_flag_then_joins_unless_drain_raises initState
      [PyObj.data 5] false 2 rfl rfl).2.1 (by decide)).1,
   ((c6_cancel_sets_flag_then_joins_unless_drain_raises initState
      [PyObj.data 5] false 2 rfl rfl).2.1 (by decide)).2 rfl⟩

/-- C7: when the pipe holds only ordinary data and the worker's send
handle is already closed (no terminal message was delivered), an active
`fetch` yields the data, then hits end-of-file, sets `canceled`, and
returns without raising. -/
theorem c7_broken_channel_treated_as_canceled (fl pr : Bool) (D : List Nat) :
    fetch ⟨false, false, fl, pr⟩ (D.map PyObj.data) true =
      ⟨D.map PyObj.data, ⟨false, true, fl, pr⟩, [], .stopped⟩ := by
  simp [fetch, fetchLoop_data_eof]

/-- C9: after the worker ran a generator that raised error `n` past its
items and closed the pipe, the first full `fetch` yields the items and
raises the error leaving both flags unset; the next `fetch` on the same
task finds the closed, empty pipe, yields nothing, raises nothing, and
sets `canceled`. -/
theorem c9_next_fetch_after_raise_silently_cancels (D : List Nat) (n : Nat) :
    fetch initState
        (payloads (wrapperRun (fun _ => false) (D.map PyObj.data)
          (some (PyObj.exception n))).trace) true =
      ⟨D.map PyObj.data, initState, [], .raised (PyObj.exception n)⟩ ∧
    fetch initState [] true = ⟨[], ⟨false, true, false, true⟩, [], .stopped⟩ := by
  constructor
  · have hp : payloads (wrapperRun (fun _ => false) (D.map PyObj.data)
        (some (PyObj.exception n))).trace =
        D.map PyObj.data ++ [PyObj.exception n] := by
      rw [payloads_no_flag]
      rfl
    rw [hp]
    simp [fetch, initState, fetchLoop_data_exc]
  · rfl

/-- C10: `fetch` never yields an exception instance to the caller: items
of the end-of-iteration marker type set `completed`, items of the
cancellation-error type set `canceled`, and any other exception-typed item
is raised — all three are consumed as control, never delivered as data. -/
theorem c10_yielded_values_never_exceptions :
    (∀ (st : TaskState) (p : List PyObj) (c : Bool) (y : PyObj),
      y ∈ (fetch st p c).yielded → y.isExc = false) ∧
    (∀ (fl pr c : Bool) (rest : List PyObj),
      (fetch ⟨false, false, fl, pr⟩
        (PyObj.stopIteration :: rest) c).st.completed = true ∧
      (fetch ⟨false, false, fl, pr⟩
        (PyObj.earlyCancellation :: rest) c).st.canceled = true ∧
      (∀ n : Nat, (fetch ⟨false, false, fl, pr⟩
        (PyObj.exception n :: rest) c).out = .raised (PyObj.exception n))) := by
  constructor
  · intro st p c y hy
    by_cases hg : (st.completed || st.canceled) = true
    · simp [fetch, hg] at hy
    · rw [fetch, if_neg hg] at hy
      exact fetchLoop_yield_not_exc c st p y hy
  · intro fl pr c rest
    exact ⟨by simp [fetch, fetchLoop], by simp [fetch, fetchLoop],
      fun n => by simp [fetch, fetchLoop]⟩

/-- Witness for C10: a concrete yielded value is not an exception
instance. -/
theorem c10_witness : (PyObj.data 2).isExc = false :=
  c10_yielded_values_never_exceptions.1 initState
    [PyObj.data 2, PyObj.stopIteration] false (PyObj.data 2) (by decide)

end BG
